import Mathlib

/-!
Verification of the ST7567S display driver core: the command protocol,
the 1024-byte frame buffer with its pixel-addressing arithmetic, and the
DirectWrite / Buffered mode state machine with its draw / flush paths.

The driver's implementation modules (`display`, `command`, `consts`) are
declared in `lib.rs` but their bodies are not part of the provided sources,
so the operational definitions below are modelled from the specification.
-/

set_option maxRecDepth 100000

namespace ST7567S

/-- A single logical transport write: either a run of command bytes or a run
of data bytes.  Bytes are modelled as `Nat` values (the driver only ever
produces byte-sized values). -/
inductive TWrite where
  | cmd (bytes : List Nat)
  | data (bytes : List Nat)
deriving DecidableEq, Repr

/-- The flat tagged byte stream of one logical write: `(false, b)` is a
command byte, `(true, b)` a data byte. -/
def TWrite.stream : TWrite → List (Bool × Nat)
  | .cmd bs => bs.map (fun b => (false, b))
  | .data bs => bs.map (fun b => (true, b))

/-- The flat tagged byte stream emitted by a sequence of logical writes. -/
def stream_of (ws : List TWrite) : List (Bool × Nat) :=
  ws.flatMap TWrite.stream

/-- Modelled from the spec: the Transport Capability, an abstract bus the
driver sends commands and data through.  `behaviour i` is the outcome of the
`i`-th write ever issued on this transport (`none` = success, `some e` =
failure with transport error `e`); `count` is the number of writes issued so
far and `log` records them in order. -/
structure Trans (E : Type) where
  behaviour : Nat → Option E
  count : Nat
  log : List TWrite

/-- Issue one write on the transport: it is appended to the log and the
outcome is dictated by the transport's behaviour. -/
def Trans.write {E : Type} (t : Trans E) (w : TWrite) : Trans E × Option E :=
  (⟨t.behaviour, t.count + 1, t.log ++ [w]⟩, t.behaviour t.count)

/-- Issue a list of writes in order, stopping at the first failure and
returning the transport error of that failing write. -/
def send_writes {E : Type} (t : Trans E) : List TWrite → Except E Unit × Trans E
  | [] => (Except.ok (), t)
  | w :: ws =>
    match t.write w with
    | (t', some e) => (Except.error e, t')
    | (t', none) => send_writes t' ws

/-- Modelled from the spec: the driver's error taxonomy — a Length Mismatch
from `draw`, or a transport error propagated verbatim. -/
inductive Error (E : Type) where
  | lengthMismatch
  | bus (e : E)
deriving DecidableEq, Repr

/-- Modelled from the spec: `build_page_address(page: 0..8)` produces one
command byte selecting the active page. -/
def build_page_address (page : Nat) : Nat :=
  0xB0 ||| page

/-- Modelled from the spec: `build_column_address(col: 0..128)` produces two
command bytes (high/low nibble split) selecting the starting column. -/
def build_column_address (col : Nat) : List Nat :=
  [0x10 ||| col / 16, col % 16]

/-- Modelled from the spec: `build_init_sequence()` produces the fixed
ordered command sequence configuring bias ratio, power control, regulation
resistor ratio, electronic-volume contrast, display start line 0,
segment/common direction, and display-on.  The spec fixes the structure of
this sequence, not its byte values; representative ST7567S opcodes are used. -/
def build_init_sequence : List Nat :=
  [0xA2, 0x2C, 0x2E, 0x2F, 0x23, 0x81, 0x20, 0x40, 0xA1, 0xC0, 0xAF]

/-- The logical writes issued for one display page: one command write with
the page-address byte and the two column-address bytes for column 0, then
one data write with that page's 128-byte slice of `data`. -/
def page_writes (data : List Nat) (page : Nat) : List TWrite :=
  [TWrite.cmd (build_page_address page :: build_column_address 0),
   TWrite.data ((data.drop (page * 128)).take 128)]

/-- The full page-by-page transmission plan for a 1024-byte frame:
pages 0..8 in ascending order. -/
def frame_writes (data : List Nat) : List TWrite :=
  (List.range 8).flatMap (page_writes data)

/-- Modelled from the spec: the Frame Buffer's `set_pixel(x: 0..128,
y: 0..64, color)` — page = y / 8, bit = y % 8, byte index = page × 128 + x;
sets or clears that bit; out-of-range coordinates are clipped silently. -/
def set_pixel (buf : List Nat) (x y : Nat) (color : Bool) : List Nat :=
  if x < 128 ∧ y < 64 then
    buf.set (y / 8 * 128 + x)
      (if color then buf.getD (y / 8 * 128 + x) 0 ||| 1 <<< (y % 8)
       else buf.getD (y / 8 * 128 + x) 0 &&& (255 ^^^ 1 <<< (y % 8)))
  else buf

/-- Modelled from the spec: the Frame Buffer's `get_pixel(x, y)` — the
inverse of `set_pixel`, with the same bounds discipline. -/
def get_pixel (buf : List Nat) (x y : Nat) : Bool :=
  if x < 128 ∧ y < 64 then (buf.getD (y / 8 * 128 + x) 0).testBit (y % 8)
  else false

/-- Modelled from the spec: the DirectWrite mode state — a driver holding
only the transport. -/
structure DirectWrite (E : Type) where
  transport : Trans E

/-- Modelled from the spec: the Buffered mode state — a driver holding the
transport and the owned 1024-byte frame buffer. -/
structure Buffered (E : Type) where
  transport : Trans E
  buffer : List Nat

/-- Modelled from the spec: `new(transport)` constructs the driver in the
default DirectWrite mode, moving the transport in. -/
def new {E : Type} (t : Trans E) : DirectWrite E :=
  ⟨t⟩

/-- Modelled from the spec: `into_buffered_graphics_mode()` consumes a
DirectWrite value, allocates a zeroed frame buffer, and returns a Buffered
value holding the same transport; no transport I/O is performed. -/
def into_buffered_graphics_mode {E : Type} (d : DirectWrite E) : Buffered E :=
  ⟨d.transport, List.replicate 1024 0⟩

/-- Modelled from the spec: `into_direct_write_mode()` — the inverse
conversion, discarding the buffer. -/
def into_direct_write_mode {E : Type} (b : Buffered E) : DirectWrite E :=
  ⟨b.transport⟩

/-- Modelled from the spec: `init()` in DirectWrite mode sends the fixed
initialization command sequence over the transport. -/
def DirectWrite.init {E : Type} (d : DirectWrite E) :
    Except (Error E) Unit × DirectWrite E :=
  match send_writes d.transport [TWrite.cmd build_init_sequence] with
  | (r, t') => (r.mapError Error.bus, ⟨t'⟩)

/-- Modelled from the spec: `draw(data)` (DirectWrite only) validates
`data.len() == 1024` before any I/O, then for each of the 8 pages issues
page-address + column-address commands and writes the page's 128-byte slice
as data bytes, aborting on the first transport failure. -/
def DirectWrite.draw {E : Type} (d : DirectWrite E) (data : List Nat) :
    Except (Error E) Unit × DirectWrite E :=
  if data.length ≠ 1024 then (Except.error Error.lengthMismatch, d)
  else
    match send_writes d.transport (frame_writes data) with
    | (r, t') => (r.mapError Error.bus, ⟨t'⟩)

/-- Modelled from the spec: `init()` in Buffered mode — same initialization
sequence, buffer untouched. -/
def Buffered.init {E : Type} (b : Buffered E) :
    Except (Error E) Unit × Buffered E :=
  match send_writes b.transport [TWrite.cmd build_init_sequence] with
  | (r, t') => (r.mapError Error.bus, ⟨t', b.buffer⟩)

/-- Modelled from the spec: `flush()` (Buffered only) — identical
page-by-page transmission as `draw`, with the buffer's bytes as the source
data; same partial-failure semantics. -/
def Buffered.flush {E : Type} (b : Buffered E) :
    Except (Error E) Unit × Buffered E :=
  match send_writes b.transport (frame_writes b.buffer) with
  | (r, t') => (r.mapError Error.bus, ⟨t', b.buffer⟩)

/-- Modelled from the spec: Buffered-mode `set_pixel` delegates to the frame
buffer with no I/O. -/
def Buffered.set_pixel {E : Type} (b : Buffered E) (x y : Nat) (color : Bool) :
    Buffered E :=
  ⟨b.transport, ST7567S.set_pixel b.buffer x y color⟩

/-- Modelled from the spec: Buffered-mode `get_pixel` delegates to the frame
buffer with no I/O. -/
def Buffered.get_pixel {E : Type} (b : Buffered E) (x y : Nat) : Bool :=
  ST7567S.get_pixel b.buffer x y

/-- Modelled from the spec: `clear()` sets every buffer byte to the all-off
value in one pass; no I/O. -/
def Buffered.clear {E : Type} (b : Buffered E) : Buffered E :=
  ⟨b.transport, List.replicate 1024 0⟩

/-- Modelled from the spec: `as_bytes()` exposes the raw frame buffer for
the flush path without copying. -/
def Buffered.as_bytes {E : Type} (b : Buffered E) : List Nat :=
  b.buffer

/-- If the transport behaviour succeeds on every write of the plan, all
writes are issued in order and appended to the log. -/
theorem send_writes_all_ok {E : Type} (ws : List TWrite) (t : Trans E)
    (h : ∀ i, i < ws.length → t.behaviour (t.count + i) = none) :
    send_writes t ws =
      (Except.ok (), ⟨t.behaviour, t.count + ws.length, t.log ++ ws⟩) := by
  induction ws generalizing t with
  | nil => simp [send_writes]
  | cons w ws ih =>
    have h0 : t.behaviour t.count = none := by simpa using h 0 (by simp)
    have hrest : ∀ i, i < ws.length →
        t.behaviour (t.count + 1 + i) = none := by
      intro i hi
      have := h (i + 1) (by simpa using Nat.succ_lt_succ hi)
      simpa [Nat.add_assoc, Nat.add_comm 1 i] using this
    simp only [send_writes, Trans.write, h0]
    rw [ih ⟨t.behaviour, t.count + 1, t.log ++ [w]⟩ hrest]
    simp [List.append_assoc, List.length_cons]
    omega

/-- A successful run of `send_writes` issued exactly the planned writes:
the log grew by the plan, the write counter advanced by its length, and the
behaviour is untouched. -/
theorem send_writes_ok_state {E : Type} (ws : List TWrite) (t t' : Trans E)
    (h : send_writes t ws = (Except.ok (), t')) :
    t'.behaviour = t.behaviour ∧ t'.count = t.count + ws.length ∧
      t'.log = t.log ++ ws := by
  induction ws generalizing t with
  | nil =>
    simp [send_writes] at h
    simp [h]
  | cons w ws ih =>
    cases hb : t.behaviour t.count with
    | some e => simp [send_writes, Trans.write, hb] at h
    | none =>
      simp only [send_writes, Trans.write, hb] at h
      rcases ih _ h with ⟨h1, h2, h3⟩
      refine ⟨h1, by simp only [List.length_cons]; simp at h2; omega,
        by simpa [List.append_assoc] using h3⟩

/-- If the first failure of the transport behaviour along the plan is at
write `k`, `send_writes` returns that transport error, issues exactly the
first `k + 1` writes (the failing one included), and issues nothing after
it. -/
theorem send_writes_first_fail {E : Type} (ws : List TWrite) (t : Trans E)
    (k : Nat) (e : E) (hk : k < ws.length)
    (hpre : ∀ i, i < k → t.behaviour (t.count + i) = none)
    (hfail : t.behaviour (t.count + k) = some e) :
    send_writes t ws =
      (Except.error e,
        ⟨t.behaviour, t.count + (k + 1), t.log ++ ws.take (k + 1)⟩) := by
  induction ws generalizing t k with
  | nil => exact absurd hk (by simp)
  | cons w ws ih =>
    cases k with
    | zero =>
      have h0 : t.behaviour t.count = some e := by simpa using hfail
      simp [send_writes, Trans.write, h0]
    | succ k =>
      have h0 : t.behaviour t.count = none := by
        simpa using hpre 0 (Nat.succ_pos k)
      have hrest : ∀ i, i < k →
          t.behaviour (t.count + 1 + i) = none := by
        intro i hi
        have := hpre (i + 1) (Nat.succ_lt_succ hi)
        simpa [Nat.add_assoc, Nat.add_comm 1 i] using this
      have hfail' : t.behaviour (t.count + 1 + k) = some e := by
        simpa [Nat.add_assoc, Nat.add_comm 1 k] using hfail
      simp only [send_writes, Trans.write, h0]
      rw [ih ⟨t.behaviour, t.count + 1, t.log ++ [w]⟩ k
        (by simpa using Nat.lt_of_succ_lt_succ hk) hrest hfail']
      simp [List.append_assoc]
      omega

/-- The tagged byte stream of concatenated write lists is the concatenation
of the streams. -/
theorem stream_of_append (l₁ l₂ : List TWrite) :
    stream_of (l₁ ++ l₂) = stream_of l₁ ++ stream_of l₂ := by
  simp [stream_of]

/-- Every bit below 8 of the all-off mask byte 255 is set. -/
theorem testBit_255 (j : Nat) : Nat.testBit 255 j = decide (j < 8) := by
  have h : (255 : Nat) = 2 ^ 8 - 1 := by norm_num
  rw [h, Nat.testBit_two_pow_sub_one]

/-- Bit `j < 8` of the byte produced by a `set_pixel` update: bit `bit`
becomes the requested colour, every other low bit is untouched. -/
theorem testBit_set_byte_lt (b bit j : Nat) (c : Bool) (hj : j < 8) :
    (if c then b ||| 1 <<< bit else b &&& (255 ^^^ 1 <<< bit)).testBit j =
      if j = bit then c else b.testBit j := by
  have h1 : (1 : Nat) <<< bit = 2 ^ bit := by simp [Nat.shiftLeft_eq]
  by_cases h : j = bit
  · subst h
    cases c with
    | true => simp [h1, Nat.testBit_or, Nat.testBit_two_pow]
    | false =>
      simp [h1, Nat.testBit_and, Nat.testBit_xor, testBit_255, hj,
        Nat.testBit_two_pow]
  · have hbj : bit ≠ j := fun hh => h hh.symm
    cases c with
    | true =>
      simp [h1, Nat.testBit_or, Nat.testBit_two_pow, h, hbj]
    | false =>
      simp [h1, Nat.testBit_and, Nat.testBit_xor, testBit_255, hj,
        Nat.testBit_two_pow, h, hbj]

/-- For a byte value `b < 256` the `set_pixel` byte update changes exactly
bit `bit` and no other bit of the byte, at every bit position. -/
theorem testBit_set_byte (b bit j : Nat) (c : Bool) (hb : b < 256)
    (hbit : bit < 8) :
    (if c then b ||| 1 <<< bit else b &&& (255 ^^^ 1 <<< bit)).testBit j =
      if j = bit then c else b.testBit j := by
  have h1 : (1 : Nat) <<< bit = 2 ^ bit := by simp [Nat.shiftLeft_eq]
  by_cases hj : j < 8
  · exact testBit_set_byte_lt b bit j c hj
  · have hjb : j ≠ bit := by omega
    have hbj : b.testBit j = false := by
      refine Nat.testBit_lt_two_pow (Nat.lt_of_lt_of_le hb ?_)
      calc (256 : Nat) = 2 ^ 8 := by norm_num
        _ ≤ 2 ^ j := Nat.pow_le_pow_right (by norm_num) (by omega)
    have hshift : Nat.testBit (1 <<< bit) j = false := by
      rw [h1]; exact Nat.testBit_two_pow_of_ne (by omega)
    cases c with
    | true => simp [Nat.testBit_or, hbj, hshift, hjb]
    | false => simp [Nat.testBit_and, hbj, hjb]

/-- The byte-index / bit-index pair `(y / 8 * 128 + x, y % 8)` determines
the pixel coordinates: two in-range coordinate pairs mapping to the same
byte and bit are equal. -/
theorem pixel_index_inj {x y x' y' : Nat} (hx : x < 128) (hx' : x' < 128)
    (hidx : y / 8 * 128 + x = y' / 8 * 128 + x') (hbit : y % 8 = y' % 8) :
    x = x' ∧ y = y' := by
  omega

/-- Reading any position of the freshly allocated all-off buffer yields the
all-off byte. -/
theorem getD_replicate_zero (i : Nat) :
    (List.replicate 1024 (0 : Nat)).getD i 0 = 0 := by
  simp only [List.getD_eq_getElem?_getD, List.getElem?_replicate]
  split <;> rfl

/-- A concrete infallible transport used as a witness input. -/
def t_ok : Trans Unit :=
  ⟨fun _ => none, 0, []⟩

/-- A concrete transport whose fourth write fails, used as a witness
input. -/
def t_fail3 : Trans Unit :=
  ⟨fun i => if i < 3 then none else some (), 0, []⟩

/-- C4: for every slice whose length is not 1024, `draw` in DirectWrite mode
returns the Length Mismatch error and performs no transport write at all:
the driver state, transport log included, is returned unchanged. -/
theorem draw_length_mismatch {E : Type} (d : DirectWrite E) (data : List Nat)
    (h : data.length ≠ 1024) :
    d.draw data = (Except.error Error.lengthMismatch, d) := by
  simp [DirectWrite.draw, h]

/-- Witness for `draw_length_mismatch` at the empty slice. -/
theorem draw_length_mismatch_witness :
    (⟨t_ok⟩ : DirectWrite Unit).draw [] =
      (Except.error Error.lengthMismatch, ⟨t_ok⟩) :=
  draw_length_mismatch ⟨t_ok⟩ [] (by decide)

/-- C8: after `clear()` every in-range pixel reads off, and `clear()` is
idempotent: clearing twice yields exactly the state (in particular the
buffer bytes) of clearing once. -/
theorem clear_all_off_idempotent {E : Type} (b : Buffered E) (x y : Nat)
    (hx : x < 128) (hy : y < 64) :
    b.clear.get_pixel x y = false ∧ b.clear.clear = b.clear := by
  refine ⟨?_, rfl⟩
  simp only [Buffered.clear, Buffered.get_pixel, get_pixel]
  rw [if_pos ⟨hx, hy⟩, getD_replicate_zero]
  exact Nat.zero_testBit _

/-- Witness for `clear_all_off_idempotent` at pixel (0, 0). -/
theorem clear_all_off_idempotent_witness :
    (⟨t_ok, []⟩ : Buffered Unit).clear.get_pixel 0 0 = false ∧
      (⟨t_ok, []⟩ : Buffered Unit).clear.clear =
        (⟨t_ok, []⟩ : Buffered Unit).clear :=
  clear_all_off_idempotent ⟨t_ok, []⟩ 0 0 (by decide) (by decide)

/-- C9: converting to Buffered mode keeps the very same transport (hence
performs no transport I/O), and the freshly allocated buffer is all zeroes:
`as_bytes` is 1024 zero bytes and every in-range pixel reads off. -/
theorem into_buffered_spec {E : Type} (d : DirectWrite E) :
    (into_buffered_graphics_mode d).transport = d.transport ∧
    (into_buffered_graphics_mode d).as_bytes = List.replicate 1024 0 ∧
    ∀ x y : Nat, x < 128 → y < 64 →
      (into_buffered_graphics_mode d).get_pixel x y = false := by
  refine ⟨rfl, rfl, fun x y hx hy => ?_⟩
  simp only [into_buffered_graphics_mode, Buffered.get_pixel, get_pixel]
  rw [if_pos ⟨hx, hy⟩, getD_replicate_zero]
  exact Nat.zero_testBit _

/-- Witness for `into_buffered_spec` at a concrete DirectWrite driver. -/
theorem into_buffered_spec_witness :
    (into_buffered_graphics_mode ⟨t_ok⟩).transport = t_ok ∧
    (into_buffered_graphics_mode (⟨t_ok⟩ : DirectWrite Unit)).as_bytes =
      List.replicate 1024 0 ∧
    ∀ x y : Nat, x < 128 → y < 64 →
      (into_buffered_graphics_mode (⟨t_ok⟩ : DirectWrite Unit)).get_pixel
        x y = false :=
  into_buffered_spec ⟨t_ok⟩

/-- C2: for in-range coordinates, `set_pixel` followed by `get_pixel` at the
same coordinates returns the written colour (both on and off), and every
other in-range pixel — in particular the other seven pixels sharing the same
buffer byte — reads the same value after the write as before it. -/
theorem set_get_pixel_round_trip (buf : List Nat) (x y x' y' : Nat) (c : Bool)
    (hlen : buf.length = 1024) (hx : x < 128) (hy : y < 64)
    (hx' : x' < 128) (hy' : y' < 64) :
    get_pixel (set_pixel buf x y c) x y = c ∧
    ((x', y') ≠ (x, y) →
      get_pixel (set_pixel buf x y c) x' y' = get_pixel buf x' y') := by
  have hidx : y / 8 * 128 + x < buf.length := by rw [hlen]; omega
  constructor
  · simp only [set_pixel, get_pixel]
    rw [if_pos ⟨hx, hy⟩, if_pos ⟨hx, hy⟩]
    rw [List.getD_eq_getElem?_getD, List.getElem?_set_self hidx]
    simp only [Option.getD_some]
    rw [testBit_set_byte_lt _ _ _ _ (Nat.mod_lt y (by norm_num))]
    simp
  · intro hne
    simp only [set_pixel, get_pixel]
    rw [if_pos ⟨hx', hy'⟩, if_pos ⟨hx, hy⟩]
    conv_rhs => rw [if_pos ⟨hx', hy'⟩]
    by_cases hsame : y' / 8 * 128 + x' = y / 8 * 128 + x
    · have hbitne : y' % 8 ≠ y % 8 := by
        intro hb
        rcases pixel_index_inj hx' hx hsame hb with ⟨hxe, hye⟩
        exact hne (by rw [hxe, hye])
      rw [hsame, List.getD_eq_getElem?_getD, List.getElem?_set_self hidx]
      simp only [Option.getD_some]
      rw [testBit_set_byte_lt _ _ _ _ (Nat.mod_lt y' (by norm_num))]
      rw [if_neg hbitne]
    · rw [List.getD_eq_getElem?_getD,
        List.getElem?_set_ne (fun hh => hsame hh.symm),
        ← List.getD_eq_getElem?_getD]

/-- Witness for `set_get_pixel_round_trip`: writing pixel (5, 13) on the
all-off buffer and re-reading it and its byte-sharing neighbour (5, 12). -/
theorem set_get_pixel_round_trip_witness :
    get_pixel (set_pixel (List.replicate 1024 0) 5 13 true) 5 13 = true ∧
    ((5, 12) ≠ (5, 13) →
      get_pixel (set_pixel (List.replicate 1024 0) 5 13 true) 5 12 =
        get_pixel (List.replicate 1024 0) 5 12) :=
  set_get_pixel_round_trip (List.replicate 1024 0) 5 13 5 12 true
    (by rw [List.length_replicate]) (by decide) (by decide) (by decide)
    (by decide)

/-- C3: for in-range coordinates and byte-valued buffer contents,
`set_pixel` changes exactly bit `y % 8` of the byte at index
`y / 8 * 128 + x` — setting it for colour on, clearing it for colour off —
and leaves the buffer length, every other byte, and every other bit of the
touched byte unchanged. -/
theorem set_pixel_bit_exact (buf : List Nat) (x y : Nat) (c : Bool)
    (hlen : buf.length = 1024) (hbytes : ∀ b ∈ buf, b < 256)
    (hx : x < 128) (hy : y < 64) :
    (set_pixel buf x y c).length = 1024 ∧
    (∀ i, i ≠ y / 8 * 128 + x →
      (set_pixel buf x y c).getD i 0 = buf.getD i 0) ∧
    (∀ j, ((set_pixel buf x y c).getD (y / 8 * 128 + x) 0).testBit j =
      if j = y % 8 then c else (buf.getD (y / 8 * 128 + x) 0).testBit j) := by
  have hidx : y / 8 * 128 + x < buf.length := by rw [hlen]; omega
  have hold : buf.getD (y / 8 * 128 + x) 0 < 256 := by
    rw [List.getD_eq_getElem?_getD, List.getElem?_eq_getElem hidx]
    exact hbytes _ (List.getElem_mem hidx)
  refine ⟨?_, fun i hi => ?_, fun j => ?_⟩
  · simp only [set_pixel]
    rw [if_pos ⟨hx, hy⟩, List.length_set, hlen]
  · simp only [set_pixel]
    rw [if_pos ⟨hx, hy⟩, List.getD_eq_getElem?_getD,
      List.getElem?_set_ne (fun hh => hi hh.symm),
      ← List.getD_eq_getElem?_getD]
  · simp only [set_pixel]
    rw [if_pos ⟨hx, hy⟩, List.getD_eq_getElem?_getD,
      List.getElem?_set_self hidx]
    simp only [Option.getD_some]
    exact testBit_set_byte _ _ _ _ hold (Nat.mod_lt y (by norm_num))

/-- Witness for `set_pixel_bit_exact` at pixel (5, 13) on the all-off
buffer. -/
theorem set_pixel_bit_exact_witness :
    (set_pixel (List.replicate 1024 0) 5 13 true).length = 1024 ∧
    (∀ i, i ≠ 13 / 8 * 128 + 5 →
      (set_pixel (List.replicate 1024 0) 5 13 true).getD i 0 =
        (List.replicate 1024 (0 : Nat)).getD i 0) ∧
    (∀ j, ((set_pixel (List.replicate 1024 0) 5 13 true).getD
        (13 / 8 * 128 + 5) 0).testBit j =
      if j = 13 % 8 then true
      else ((List.replicate 1024 (0 : Nat)).getD (13 / 8 * 128 + 5) 0).testBit
        j) :=
  set_pixel_bit_exact (List.replicate 1024 0) 5 13 true
    (by rw [List.length_replicate])
    (fun b hb => by rw [List.eq_of_mem_replicate hb]; norm_num)
    (by decide) (by decide)

/-- C6: flushing a Buffered driver performs exactly the transport
interaction and returns exactly the result value that `draw` in DirectWrite
mode would produce on the buffer's `as_bytes` content, and the buffer
itself is untouched. -/
theorem flush_refines_draw {E : Type} (b : Buffered E)
    (hlen : b.buffer.length = 1024) :
    (b.flush).1 = (DirectWrite.draw ⟨b.transport⟩ b.as_bytes).1 ∧
    (b.flush).2.transport =
      (DirectWrite.draw ⟨b.transport⟩ b.as_bytes).2.transport ∧
    (b.flush).2.buffer = b.buffer := by
  have hne : ¬b.buffer.length ≠ 1024 := by rw [hlen]; simp
  rcases hsw : send_writes b.transport (frame_writes b.buffer) with ⟨r, t'⟩
  simp [Buffered.flush, DirectWrite.draw, Buffered.as_bytes, hne, hsw]

/-- Witness for `flush_refines_draw` on a fresh Buffered driver. -/
theorem flush_refines_draw_witness :
    ((⟨t_ok, List.replicate 1024 0⟩ : Buffered Unit).flush).1 =
      (DirectWrite.draw ⟨t_ok⟩ (⟨t_ok, List.replicate 1024 0⟩ :
        Buffered Unit).as_bytes).1 ∧
    ((⟨t_ok, List.replicate 1024 0⟩ : Buffered Unit).flush).2.transport =
      (DirectWrite.draw ⟨t_ok⟩ (⟨t_ok, List.replicate 1024 0⟩ :
        Buffered Unit).as_bytes).2.transport ∧
    ((⟨t_ok, List.replicate 1024 0⟩ : Buffered Unit).flush).2.buffer =
      List.replicate 1024 0 :=
  flush_refines_draw ⟨t_ok, List.replicate 1024 0⟩ (by rw [List.length_replicate])

/-- `flush` never modifies the frame buffer. -/
theorem flush_buffer_eq {E : Type} (b : Buffered E) :
    (b.flush).2.buffer = b.buffer := by
  rcases hsw : send_writes b.transport (frame_writes b.buffer) with ⟨r, t'⟩
  simp [Buffered.flush, hsw]

/-- `init` never modifies the frame buffer. -/
theorem init_buffer_eq {E : Type} (b : Buffered E) :
    (b.init).2.buffer = b.buffer := by
  rcases hsw : send_writes b.transport [TWrite.cmd build_init_sequence]
    with ⟨r, t'⟩
  simp [Buffered.init, hsw]

/-- The Buffered-mode driver states reachable by the public API: mode
conversion followed by any sequence of pixel writes, clears, flushes and
re-initializations. -/
inductive Reachable {E : Type} : Buffered E → Prop where
  | conv (d : DirectWrite E) : Reachable (into_buffered_graphics_mode d)
  | set_px (b : Buffered E) (x y : Nat) (c : Bool) :
      Reachable b → Reachable (b.set_pixel x y c)
  | clear_op (b : Buffered E) : Reachable b → Reachable b.clear
  | flush_op (b : Buffered E) : Reachable b → Reachable (b.flush).2
  | init_op (b : Buffered E) : Reachable b → Reachable (b.init).2

/-- C7: every Buffered-mode driver state reachable through the public API
has a frame buffer of exactly 1024 bytes — the buffer is never resized. -/
theorem buffer_size_invariant {E : Type} (b : Buffered E)
    (h : Reachable b) : b.as_bytes.length = 1024 := by
  induction h with
  | conv d => exact List.length_replicate ..
  | set_px b x y c _ ih =>
    simp only [Buffered.as_bytes, Buffered.set_pixel] at ih ⊢
    simp only [set_pixel]
    split
    · rw [List.length_set]; exact ih
    · exact ih
  | clear_op b _ _ => exact List.length_replicate ..
  | flush_op b _ ih =>
    simpa only [Buffered.as_bytes, flush_buffer_eq] using ih
  | init_op b _ ih =>
    simpa only [Buffered.as_bytes, init_buffer_eq] using ih

/-- Witness for `buffer_size_invariant` at a state reached by converting,
setting a pixel, and flushing. -/
theorem buffer_size_invariant_witness :
    ((((into_buffered_graphics_mode (⟨t_ok⟩ : DirectWrite Unit)).set_pixel
      3 9 true).flush).2).as_bytes.length = 1024 :=
  buffer_size_invariant _
    (Reachable.flush_op _ (Reachable.set_px _ 3 9 true (Reachable.conv _)))

/-- C10: with an infallible transport every driver entry point succeeds:
`init` in either mode, `draw` on a 1024-byte slice, and `flush`.  The only
error source is the transport itself. -/
theorem infallible_transport_ok {E : Type} (t : Trans E)
    (h : ∀ i, t.behaviour i = none) (data buf : List Nat)
    (hdata : data.length = 1024) :
    ((new t).init).1 = Except.ok () ∧
    ((new t).draw data).1 = Except.ok () ∧
    ((⟨t, buf⟩ : Buffered E).init).1 = Except.ok () ∧
    ((⟨t, buf⟩ : Buffered E).flush).1 = Except.ok () := by
  have hne : ¬data.length ≠ 1024 := by rw [hdata]; simp
  refine ⟨?_, ?_, ?_, ?_⟩
  · rw [new, DirectWrite.init,
      send_writes_all_ok _ _ (fun i _ => h (t.count + i))]
    rfl
  · rw [new, DirectWrite.draw, if_neg hne,
      send_writes_all_ok _ _ (fun i _ => h (t.count + i))]
    rfl
  · rw [Buffered.init, send_writes_all_ok _ _ (fun i _ => h (t.count + i))]
    rfl
  · rw [Buffered.flush, send_writes_all_ok _ _ (fun i _ => h (t.count + i))]
    rfl

/-- Witness for `infallible_transport_ok` on the infallible transport and
all-off frames. -/
theorem infallible_transport_ok_witness :
    ((new t_ok).init).1 = Except.ok () ∧
    ((new t_ok).draw (List.replicate 1024 0)).1 = Except.ok () ∧
    ((⟨t_ok, List.replicate 1024 0⟩ : Buffered Unit).init).1 =
      Except.ok () ∧
    ((⟨t_ok, List.replicate 1024 0⟩ : Buffered Unit).flush).1 =
      Except.ok () :=
  infallible_transport_ok t_ok (fun _ => rfl) (List.replicate 1024 0)
    (List.replicate 1024 0) (by rw [List.length_replicate])

/-- The tagged byte stream distributes over a page-indexed concatenation of
write plans. -/
theorem stream_of_flatMap (l : List Nat) (f : Nat → List TWrite) :
    stream_of (l.flatMap f) = l.flatMap (fun p => stream_of (f p)) := by
  induction l with
  | nil => rfl
  | cons p l ih =>
    simp only [List.flatMap_cons, stream_of_append, ih]

/-- The full frame transmission plan consists of exactly 16 logical writes
(two per page), whatever the source data. -/
theorem frame_writes_length (data : List Nat) :
    (frame_writes data).length = 16 := by
  rw [frame_writes, show List.range 8 = [0, 1, 2, 3, 4, 5, 6, 7] from rfl]
  simp [page_writes]

/-- C1: a successful `flush` appends to the transport's byte stream, for
each page 0..8 in ascending order, exactly one page-address command byte,
the two column-address command bytes selecting column 0, and then the
page's 128-byte slice of the buffer as data bytes — nothing else is
interleaved, and each page slice contributes exactly 128 data bytes. -/
theorem flush_stream_spec {E : Type} (b : Buffered E)
    (hlen : b.buffer.length = 1024)
    (hok : (b.flush).1 = Except.ok ()) :
    stream_of (b.flush).2.transport.log =
      stream_of b.transport.log ++
        (List.range 8).flatMap (fun p =>
          (false, build_page_address p) ::
            ((build_column_address 0).map (fun cb => (false, cb)) ++
              ((b.buffer.drop (p * 128)).take 128).map
                (fun db => (true, db)))) ∧
    (List.range 8).map
        (fun p => ((b.buffer.drop (p * 128)).take 128).length) =
      List.replicate 8 128 := by
  constructor
  · rcases hsw : send_writes b.transport (frame_writes b.buffer) with ⟨r, t'⟩
    have hflush : b.flush = (r.mapError Error.bus, ⟨t', b.buffer⟩) := by
      simp [Buffered.flush, hsw]
    cases r with
    | error e =>
      rw [hflush] at hok
      simp [Except.mapError] at hok
    | ok u =>
      rcases send_writes_ok_state _ _ _ hsw with ⟨_, _, hlog⟩
      rw [hflush]
      simp only
      rw [hlog, stream_of_append, frame_writes, stream_of_flatMap]
      congr 1
      refine List.flatMap_congr ?_
      intro p _
      simp [stream_of, page_writes, TWrite.stream]
  · rw [show List.range 8 = [0, 1, 2, 3, 4, 5, 6, 7] from rfl]
    simp [List.length_take, List.length_drop, hlen]

/-- Witness for `flush_stream_spec`: a successful flush of the all-off
buffer on the infallible transport. -/
theorem flush_stream_spec_witness :
    stream_of ((⟨t_ok, List.replicate 1024 0⟩ : Buffered
        Unit).flush).2.transport.log =
      stream_of t_ok.log ++
        (List.range 8).flatMap (fun p =>
          (false, build_page_address p) ::
            ((build_column_address 0).map (fun cb => (false, cb)) ++
              (((List.replicate 1024 0).drop (p * 128)).take 128).map
                (fun db => (true, db)))) ∧
    (List.range 8).map
        (fun p =>
          (((List.replicate 1024 (0 : Nat)).drop (p * 128)).take
            128).length) =
      List.replicate 8 128 :=
  flush_stream_spec ⟨t_ok, List.replicate 1024 0⟩
    (by rw [List.length_replicate])
    (by
      have h := send_writes_all_ok
        (frame_writes (List.replicate 1024 0)) t_ok (fun i _ => rfl)
      simp only [Buffered.flush, h]
      rfl)

/-- C5: if the transport's first failure along a valid `draw` or `flush`
call is at write `k` of the 16-write plan, the call returns the transport
error unchanged wrapped as a bus error, issues exactly the writes up to and
including the failing one (nothing is retried, nothing further is issued),
and the writes already made stay in the transport log. -/
theorem transport_failure_aborts {E : Type} (t : Trans E)
    (data buf : List Nat) (k : Nat) (e : E)
    (hlen : data.length = 1024) (hk : k < 16)
    (hpre : ∀ i, i < k → t.behaviour (t.count + i) = none)
    (hfail : t.behaviour (t.count + k) = some e) :
    (⟨t⟩ : DirectWrite E).draw data =
      (Except.error (Error.bus e),
        ⟨⟨t.behaviour, t.count + (k + 1),
          t.log ++ (frame_writes data).take (k + 1)⟩⟩) ∧
    (⟨t, buf⟩ : Buffered E).flush =
      (Except.error (Error.bus e),
        ⟨⟨t.behaviour, t.count + (k + 1),
          t.log ++ (frame_writes buf).take (k + 1)⟩, buf⟩) := by
  have hne : ¬data.length ≠ 1024 := by rw [hlen]; simp
  constructor
  · simp only [DirectWrite.draw, if_neg hne]
    rw [send_writes_first_fail _ _ k e
      (by rw [frame_writes_length]; omega) hpre hfail]
    rfl
  · simp only [Buffered.flush]
    rw [send_writes_first_fail _ _ k e
      (by rw [frame_writes_length]; omega) hpre hfail]
    rfl

/-- Witness for `transport_failure_aborts`: a transport failing at its
fourth write, during a draw of the all-off frame and a flush of the all-on
frame. -/
theorem transport_failure_aborts_witness :
    (⟨t_fail3⟩ : DirectWrite Unit).draw (List.replicate 1024 0) =
      (Except.error (Error.bus ()),
        ⟨⟨t_fail3.behaviour, t_fail3.count + (3 + 1),
          t_fail3.log ++
            (frame_writes (List.replicate 1024 0)).take (3 + 1)⟩⟩) ∧
    (⟨t_fail3, List.replicate 1024 255⟩ : Buffered Unit).flush =
      (Except.error (Error.bus ()),
        ⟨⟨t_fail3.behaviour, t_fail3.count + (3 + 1),
          t_fail3.log ++
            (frame_writes (List.replicate 1024 255)).take (3 + 1)⟩,
          List.replicate 1024 255⟩) :=
  transport_failure_aborts t_fail3 (List.replicate 1024 0)
    (List.replicate 1024 255) 3 () (by rw [List.length_replicate])
    (by omega)
    (by
      intro i hi
      show (if 0 + i < 3 then (none : Option Unit) else some ()) = none
      rw [if_pos (by omega)])
    rfl

end ST7567S
